import Mathlib

/-!
Verification development for the TW3.0 Go-assistant repository.

Shallow embedding of the two self-contained algorithmic modules:

* `src/TW3.0/sgf_parser.py` — SGF header and move-list parsing
  (`SGFParser.parse_sgf`, `_parse_header`, `_parse_moves`);
* `src/TW3.0/progress_tracker.py` — Elo-like rating update
  (`RatingCalculator.calculate_new_rating`, `estimate_strength`),
  progress records (`ProgressTracker.record_game_result`,
  `get_progress_summary`, `_calculate_improvement_score`) and milestones
  (`MilestoneManager.check_milestones`).

Python floats are modelled by exact real arithmetic; database reads
(`get_latest_record`, `get_recent_records`) become explicit parameters;
identifier and wall-clock fields (`record_id`, `user_id`, `timestamp`)
are not modelled.
-/

set_option maxHeartbeats 1000000

namespace TW3

/-! ## SGF parser (src/TW3.0/sgf_parser.py) -/

/-- A parsed move: `(move_number, color, coordinates)`, coordinates
`none` for a pass.  The coordinate components are `ord(letter) - ord('a')`
computed in Python `int` arithmetic, hence `Int`. -/
abbrev Move := Nat × Char × Option (Int × Int)

/-- Result dictionary of `SGFParser.parse_sgf`: keys `header`, `moves`,
`size` (the parser's `self.size`, a Python `int`). -/
structure SGFResult where
  header : List (String × String)
  moves : List Move
  size : Int
  deriving DecidableEq

/-- Whitespace stripped by Python `str.strip()` (newlines and carriage
returns are already removed before the strip in `parse_sgf`). -/
def isPyWs (c : Char) : Bool :=
  c = ' ' || c = '\t' || c = '\x0b' || c = '\x0c' || c = '\n' || c = '\r'

/-- Strip leading and trailing whitespace, as Python `str.strip()`. -/
def stripWs (l : List Char) : List Char :=
  ((l.dropWhile isPyWs).reverse.dropWhile isPyWs).reverse

/-- Preprocessing in `parse_sgf` (lines 28-29): a `re.sub` that inserts a
newline after some semicolons, followed by removal of every newline and
carriage return and a final `strip()`.  The inserted newlines are removed
again, so the net effect is exactly: delete every `\n` and `\r`, then
strip surrounding whitespace. -/
def cleanSGF (s : String) : List Char :=
  stripWs (s.data.filter (fun c => c ≠ '\n' && c ≠ '\r'))

/-- First match of the regex `TAG\[([^\]]+)\]` in `_parse_header`: scan
left to right for the literal `tag` (the tag letters together with the
opening bracket); the bracket content must be nonempty, free of closing
brackets, and followed by a closing bracket, otherwise the scan moves on
by one character. -/
def findTagValue (tag : List Char) : List Char → Option (List Char)
  | [] => none
  | c :: rest =>
    if tag.isPrefixOf (c :: rest) then
      let after := (c :: rest).drop tag.length
      let content := after.takeWhile (fun d => d ≠ ']')
      if content ≠ [] && (after.drop content.length) ≠ [] then
        some content
      else
        findTagValue tag rest
    else
      findTagValue tag rest

/-- Digit-string to number, the core of Python `int(str)`. -/
def digitsToNat (l : List Char) : Option Nat :=
  if l ≠ [] && l.all Char.isDigit then
    some (l.foldl (fun a c => a * 10 + (c.toNat - 48)) 0)
  else
    none

/-- Python `int(str)`: surrounding whitespace is ignored, an optional
sign precedes the digits, anything else raises `ValueError` (modelled by
`none`; digit-group underscores are not modelled). -/
def pyInt (l : List Char) : Option Int :=
  match stripWs l with
  | '+' :: ds => (digitsToNat ds).map Int.ofNat
  | '-' :: ds => (digitsToNat ds).map (fun n => -(n : Int))
  | ds => (digitsToNat ds).map Int.ofNat

/-- The header tags scanned by `_parse_header` (lines 50-63), in the
order of the `patterns` dictionary. -/
def headerTags : List String :=
  ["GM", "FF", "CA", "SZ", "PB", "PW", "WR", "BR", "DT", "KM", "HA", "RE"]

/-- The `header` dictionary built by `_parse_header`: each recognised
tag maps to its first bracketed value. -/
def parse_header (s : List Char) : List (String × String) :=
  headerTags.filterMap (fun t =>
    (findTagValue (t.data ++ ['[']) s).map (fun v => (t, String.mk v)))

/-- The parser's `self.size` after `_parse_header`: initialised to 19,
set to `int(value)` when an `SZ` tag is found, reset to 19 when `int`
raises `ValueError`. -/
def headerSize (s : List Char) : Int :=
  match findTagValue ['S', 'Z', '['] s with
  | none => 19
  | some v =>
    match pyInt v with
    | some n => n
    | none => 19

/-- Python `re` error raised when compiling the move pattern of
`_parse_moves` (line 85): in the pattern `(B|W)\[([a-z]\x7b2\x7d|[])`
the trailing `[])` opens a character set whose first member is a literal
closing bracket, so the set is never terminated and `re.findall` raises
`re.error` before looking at the subject string. -/
def moveRegexErrorMsg : String := "unterminated character set at position 17"

/-- The body of `_parse_moves` (lines 77-99) as the code actually
behaves: the module-level call `re.findall(move_pattern, sgf_content)`
raises `re.error` for every input, so no move list is ever produced. -/
def parse_moves (s : List Char) : Except String (List Move) :=
  Except.error moveRegexErrorMsg

/-- The `parse_sgf` entry point (lines 21-41): clean the text, parse the
header (which assigns `self.size`), then parse the moves — the last step
raises, and the exception propagates to the caller. -/
def parse_sgf (s : String) : Except String SGFResult :=
  let cleaned := cleanSGF s
  let hdr := parse_header cleaned
  let size := headerSize cleaned
  match parse_moves cleaned with
  | Except.error e => Except.error e
  | Except.ok ms => Except.ok ⟨hdr, ms, size⟩

/-- Lowercase letter class `[a-z]` of the move pattern. -/
def isLowerAZ (c : Char) : Bool := 97 ≤ c.toNat && c.toNat ≤ 122

/-- Modelled from the spec: `re.findall` for the move pattern that
`_parse_moves` evidently intends (the spec's "scanning for alternating
B[...] / W[...] tokens in document order", with the written class `[])`
read as matching a literal closing bracket or parenthesis, which is what
the `coord == ']'` branch of the loop expects).  At each position: a `B`
or `W` followed by an opening bracket matches either two lowercase
letters or one character from the intended class; on failure the scan
advances one character, on success it resumes after the match.  The
fuel argument starts at the length of the list and dominates it, so it
never runs out before the list does. -/
def findallMovesAux : Nat → List Char → List (Char × List Char)
  | 0, _ => []
  | _ + 1, [] => []
  | _ + 1, [_] => []
  | fuel + 1, [_, b] => findallMovesAux fuel [b]
  | fuel + 1, [c, b, d1] =>
    if (c = 'B' || c = 'W') && b = '[' && (d1 = ']' || d1 = ')') then
      [(c, [d1])]
    else
      findallMovesAux fuel [b, d1]
  | fuel + 1, c :: b :: d1 :: d2 :: r3 =>
    if c = 'B' || c = 'W' then
      if b = '[' then
        if isLowerAZ d1 && isLowerAZ d2 then
          (c, [d1, d2]) :: findallMovesAux fuel r3
        else if d1 = ']' || d1 = ')' then
          (c, [d1]) :: findallMovesAux fuel (d2 :: r3)
        else
          findallMovesAux fuel (b :: d1 :: d2 :: r3)
      else
        findallMovesAux fuel (b :: d1 :: d2 :: r3)
    else
      findallMovesAux fuel (b :: d1 :: d2 :: r3)

/-- Modelled from the spec: the intended match list of the move scan. -/
def findallMoves (s : List Char) : List (Char × List Char) :=
  findallMovesAux s.length s

/-- The move-construction loop of `_parse_moves` (lines 88-97), verbatim
from the source: a `]` or `tt` coordinate is a pass, a two-character
coordinate is decoded as `col = ord(c0) - ord('a')`,
`row = ord(c1) - ord('a')` and appended as `(row, col)`, anything else
is dropped; `move_num` advances for every match either way. -/
def movesFromMatches : Nat → List (Char × List Char) → List Move
  | _, [] => []
  | n, (color, coord) :: rest =>
    if coord = [']'] || coord = ['t', 't'] then
      (n, color, none) :: movesFromMatches (n + 1) rest
    else
      match coord with
      | [c0, c1] =>
        (n, color, some ((c1.toNat : Int) - 97, (c0.toNat : Int) - 97)) ::
          movesFromMatches (n + 1) rest
      | _ => movesFromMatches (n + 1) rest

/-- Modelled from the spec: `_parse_moves` with the intended move
pattern in place of the malformed one. -/
def parse_moves_fixed (s : List Char) : List Move :=
  movesFromMatches 1 (findallMoves s)

/-- Modelled from the spec: `parse_sgf` with the intended move scan. -/
def parse_sgf_fixed (s : String) : SGFResult :=
  let cleaned := cleanSGF s
  ⟨parse_header cleaned, parse_moves_fixed cleaned, headerSize cleaned⟩

/-! ## Rating calculator and progress tracker
(src/TW3.0/progress_tracker.py)

Python float arithmetic is modelled by exact real arithmetic. -/

/-- `RatingCalculator.initial_rating` (line 39). -/
noncomputable def initial_rating : ℝ := 1500

/-- Expected score of `calculate_new_rating` (line 49):
`1.0 / (1 + 10 ** ((opponent_rating - old_rating) / 400))`. -/
noncomputable def expectedScore (old_rating opponent_rating : ℝ) : ℝ :=
  1 / (1 + (10 : ℝ) ^ ((opponent_rating - old_rating) / 400))

/-- K-factor of `calculate_new_rating` (line 52):
`max(20, 60 - games_played * 0.1)`. -/
noncomputable def kFactor (games_played : ℕ) : ℝ :=
  max 20 (60 - (games_played : ℝ) * 0.1)

/-- `RatingCalculator.calculate_new_rating` (lines 42-57): Elo-style
update floored at 100. -/
noncomputable def calculate_new_rating (old_rating opponent_rating game_result : ℝ)
    (games_played : ℕ) : ℝ :=
  max 100
    (old_rating + kFactor games_played * (game_result - expectedScore old_rating opponent_rating))

/-- `RatingCalculator.estimate_strength` (lines 59-86): rating to rank
label. -/
noncomputable def estimate_strength (rating : ℝ) : String :=
  if rating < 300 then "30级"
  else if rating < 600 then "25级"
  else if rating < 900 then "20级"
  else if rating < 1200 then "15级"
  else if rating < 1500 then "10级"
  else if rating < 1800 then "5级"
  else if rating < 2100 then "1段"
  else if rating < 2400 then "2段"
  else if rating < 2700 then "3段"
  else if rating < 3000 then "4段"
  else if rating < 3300 then "5段"
  else if rating < 3600 then "6段"
  else "7段+"

/-- The `ProgressRecord` dataclass (lines 19-32) without its identifier
and clock fields (`record_id`, `user_id`, `timestamp`). -/
structure ProgressRecord where
  rating : ℝ
  rank : String
  win_rate : ℝ
  strength_estimate : ℝ
  games_played : ℕ
  games_won : ℕ
  performance_rating : ℝ
  improvement_score : ℝ

instance : Inhabited ProgressRecord := ⟨⟨0, "", 0, 0, 0, 0, 0, 0⟩⟩

/-- `ProgressTracker._calculate_improvement_score` (lines 177-206); the
database read `get_recent_records(user_id, days=30)` becomes the
parameter `recent_records`, and the unused `total_games` parameter is
kept.  Least-squares slope of `strength_estimate` over record index,
blended with recent growth. -/
noncomputable def calculate_improvement_score (recent_records : List ProgressRecord)
    (current_rating : ℝ) (total_games : ℕ) : ℝ :=
  if recent_records.length < 2 then 0
  else
    let ratings_over_time := recent_records.map (fun r => r.strength_estimate)
    let n := ratings_over_time.length
    let time_points := (List.range n).map (fun i => (i : ℝ))
    let sum_x := time_points.sum
    let sum_y := ratings_over_time.sum
    let sum_xy := ((time_points.zip ratings_over_time).map (fun p => p.1 * p.2)).sum
    let sum_x2 := (time_points.map (fun x => x * x)).sum
    let slope :=
      if (n : ℝ) * sum_x2 - sum_x * sum_x ≠ 0 then
        ((n : ℝ) * sum_xy - sum_x * sum_y) / ((n : ℝ) * sum_x2 - sum_x * sum_x)
      else 0
    let recent_growth :=
      if ratings_over_time ≠ [] then current_rating - ratings_over_time.headI else 0
    slope * 0.7 + recent_growth / (max 1 n : ℕ) * 0.3

/-- `ProgressTracker.record_game_result` (lines 122-175); the database
reads become the parameters `last_record` (the latest record for the
user, `none` for a fresh user) and `recent_records` (the 30-day window
used by the improvement score). -/
noncomputable def record_game_result (last_record : Option ProgressRecord)
    (recent_records : List ProgressRecord) (opponent_rating game_result : ℝ) :
    ProgressRecord :=
  let old_rating := match last_record with
    | some r => r.rating
    | none => initial_rating
  let games_played := match last_record with
    | some r => r.games_played + 1
    | none => 1
  let games_won : ℕ := match last_record with
    | some r => r.games_won + (if game_result = 1 then 1 else 0)
    | none => if game_result = 1 then 1 else 0
  let new_rating := calculate_new_rating old_rating opponent_rating game_result games_played
  let win_rate := if 0 < games_played then (games_won : ℝ) / (games_played : ℝ) else 0
  let strength_rank := estimate_strength new_rating
  let performance_rating := opponent_rating + 400 * (game_result - 0.5) * 2
  let improvement_score := calculate_improvement_score recent_records new_rating games_played
  { rating := new_rating
    rank := strength_rank
    win_rate := win_rate
    strength_estimate := new_rating
    games_played := games_played
    games_won := games_won
    performance_rating := performance_rating
    improvement_score := improvement_score }

/-- The summary dictionary returned by
`ProgressTracker.get_progress_summary`, without the `last_updated`
timestamp field. -/
structure Summary where
  current_rating : ℝ
  current_rank : String
  total_games : ℕ
  win_rate : ℝ
  improvement_trend : String

/-- `ProgressTracker.get_progress_summary` (lines 301-342); the database
reads become the parameters `latest` and `recent_records`. -/
noncomputable def get_progress_summary (latest : Option ProgressRecord)
    (recent_records : List ProgressRecord) : Summary :=
  match latest with
  | none =>
    { current_rating := initial_rating
      current_rank := estimate_strength initial_rating
      total_games := 0
      win_rate := 0
      improvement_trend := "unknown" }
  | some latestRec =>
    let trend :=
      if 2 ≤ recent_records.length then
        let rating_change :=
          (recent_records.getLastD default).rating - recent_records.headI.rating
        if rating_change > 50 then "strongly_improving"
        else if rating_change > 10 then "improving"
        else if rating_change < -50 then "declining"
        else if rating_change < -10 then "declining_slowly"
        else "stable"
      else "insufficient_data"
    { current_rating := latestRec.rating
      current_rank := latestRec.rank
      total_games := latestRec.games_played
      win_rate := latestRec.win_rate
      improvement_trend := trend }

/-! ## Milestone manager (src/TW3.0/progress_tracker.py, lines 395-454)

`MilestoneManager.__init__` creates one `self.milestones` dictionary for
the whole manager — the achieved flags are not keyed by user, so the
dictionary is shared by every user the manager is asked about. -/

/-- The achieved flags of the single `self.milestones` dictionary, as a
map from milestone key to its `achieved` entry. -/
def MilestoneState := String → Bool

/-- The initial milestone dictionary: every `achieved` flag is False. -/
def initMilestones : MilestoneState := fun _ => false

/-- The trigger condition of each milestone key in
`check_milestones` (lines 417-450): game-count, win-rate and rating
thresholds read from the user's summary, and the first-win check read
from the user's latest record. -/
noncomputable def milestoneCond (summary : Summary)
    (latest_record : Option ProgressRecord) : String → Prop
  | "first_game" => 1 ≤ summary.total_games
  | "ten_games" => 10 ≤ summary.total_games
  | "win_rate_60" => (0.6 : ℝ) ≤ summary.win_rate
  | "win_rate_70" => (0.7 : ℝ) ≤ summary.win_rate
  | "rating_1600" => (1600 : ℝ) ≤ summary.current_rating
  | "rating_1800" => (1800 : ℝ) ≤ summary.current_rating
  | "rating_2000" => (2000 : ℝ) ≤ summary.current_rating
  | "first_win" =>
    match latest_record with
    | some r => 1 ≤ r.games_won
    | none => False
  | _ => False

/-- The order in which `check_milestones` examines its eight milestone
keys (lines 417-450). -/
def checkOrder : List String :=
  ["first_game", "ten_games", "win_rate_60", "win_rate_70",
   "rating_1600", "rating_1800", "rating_2000", "first_win"]

section Milestones

open Classical

/-- One if-block of `check_milestones`: when the key's condition holds
and its achieved flag is still False, mark it achieved and append it to
the newly-achieved list. -/
noncomputable def milestoneStep (summary : Summary)
    (latest_record : Option ProgressRecord) (acc : List String × MilestoneState)
    (k : String) : List String × MilestoneState :=
  if milestoneCond summary latest_record k ∧ acc.2 k = false then
    (acc.1 ++ [k], fun k2 => if k2 = k then true else acc.2 k2)
  else
    acc

/-- `MilestoneManager.check_milestones` (lines 411-454); the calls
`self.tracker.get_progress_summary(user_id)` and
`self.tracker.get_latest_record(user_id)` become the parameters
`summary` and `latest_record`.  The body is eight sequential if-blocks
that differ only in key and threshold; they are rendered as one fold
over the keys in the code's order.  Returns the keys of the newly
achieved milestones together with the updated shared dictionary. -/
noncomputable def check_milestones (st : MilestoneState) (summary : Summary)
    (latest_record : Option ProgressRecord) : List String × MilestoneState :=
  checkOrder.foldl (milestoneStep summary latest_record) ([], st)

end Milestones

/-! ## Helper lemmas -/

/-- When the two ratings are equal the exponent is zero and the expected
score is one half. -/
theorem expectedScore_self (r o : ℝ) (h : o = r) : expectedScore r o = 1 / 2 := by
  unfold expectedScore
  rw [h, sub_self, zero_div, Real.rpow_zero]
  norm_num

/-- Value of the K-factor after the first recorded game: the tracker
passes the already-incremented game count 1, so the K-factor is 59.9,
not 60. -/
theorem kFactor_one : kFactor 1 = 599 / 10 := by
  unfold kFactor
  rw [max_eq_right (by norm_num)]
  norm_num

/-- Rating produced by a first win against an equal 1500 opponent. -/
theorem calculate_first_win : calculate_new_rating 1500 1500 1 1 = 30599 / 20 := by
  unfold calculate_new_rating
  rw [expectedScore_self 1500 1500 rfl, kFactor_one, max_eq_right (by norm_num)]
  norm_num

/-- The rank labels of `estimate_strength` in ascending strength order
(the spec's fixed ordered rank list, 30 kyu first, 7 dan+ last). -/
def rankList : List String :=
  ["30级", "25级", "20级", "15级", "10级", "5级", "1段", "2段", "3段", "4段", "5段", "6段", "7段+"]

/-- Position of a rank label in the fixed ordered rank list. -/
def rankIndex (s : String) : ℕ := rankList.indexOf s

/-- Threshold chain evaluator: first threshold strictly above the rating
wins, otherwise the default label. -/
noncomputable def rankChain : List (ℝ × String) → String → ℝ → String
  | [], d, _ => d
  | (t, l) :: ts, d, r => if r < t then l else rankChain ts d r

/-- The threshold table of `estimate_strength`. -/
noncomputable def rankTable : List (ℝ × String) :=
  [(300, "30级"), (600, "25级"), (900, "20级"), (1200, "15级"), (1500, "10级"),
   (1800, "5级"), (2100, "1段"), (2400, "2段"), (2700, "3段"), (3000, "4段"),
   (3300, "5段"), (3600, "6段")]

/-- The rational image of `rankTable`, used to let the kernel check its
label ordering. -/
def rankTableQ : List (ℚ × String) :=
  [(300, "30级"), (600, "25级"), (900, "20级"), (1200, "15级"), (1500, "10级"),
   (1800, "5级"), (2100, "1段"), (2400, "2段"), (2700, "3段"), (3000, "4段"),
   (3300, "5段"), (3600, "6段")]

/-- The if-chain of `estimate_strength` is exactly the chain evaluation
of its threshold table. -/
theorem estimate_strength_eq_chain (r : ℝ) :
    estimate_strength r = rankChain rankTable "7段+" r := rfl

/-- A chain evaluation returns the default label or one of the table's
labels. -/
theorem rankChain_result (ts : List (ℝ × String)) (d : String) (r : ℝ) :
    rankChain ts d r = d ∨ ∃ p ∈ ts, rankChain ts d r = p.2 := by
  induction ts with
  | nil => left; rfl
  | cons p ts ih =>
    obtain ⟨t, l⟩ := p
    by_cases hr : r < t
    · right; exact ⟨(t, l), List.mem_cons_self _ _, by simp [rankChain, hr]⟩
    · rcases ih with h | ⟨q, hq, h⟩
      · left; simpa [rankChain, hr] using h
      · right; exact ⟨q, List.mem_cons_of_mem _ hq, by simpa [rankChain, hr] using h⟩

/-- Chain evaluation is monotone in the rating whenever the table's
labels appear in ascending `rankIndex` order below the default. -/
theorem rankChain_mono (ts : List (ℝ × String)) (d : String) (r1 r2 : ℝ)
    (hsort : List.Pairwise (fun a b => rankIndex a.2 ≤ rankIndex b.2) ts)
    (hd : ∀ p ∈ ts, rankIndex p.2 ≤ rankIndex d) (h : r1 ≤ r2) :
    rankIndex (rankChain ts d r1) ≤ rankIndex (rankChain ts d r2) := by
  induction ts with
  | nil => simp [rankChain]
  | cons p ts ih =>
    obtain ⟨t, l⟩ := p
    simp only [rankChain]
    by_cases h2 : r2 < t
    · rw [if_pos (lt_of_le_of_lt h h2), if_pos h2]
    · rw [if_neg h2]
      by_cases h1 : r1 < t
      · rw [if_pos h1]
        rcases rankChain_result ts d r2 with heq | ⟨q, hq, heq⟩
        · rw [heq]; exact hd (t, l) (List.mem_cons_self _ _)
        · rw [heq]
          exact (List.pairwise_cons.mp hsort).1 q hq
      · rw [if_neg h1]
        exact ih (List.pairwise_cons.mp hsort).2
          (fun q hq => hd q (List.mem_cons_of_mem _ hq))

/-- The labels of the threshold table are in ascending rank order. -/
theorem rankTable_sorted :
    List.Pairwise (fun a b => rankIndex a.2 ≤ rankIndex b.2) rankTable := by
  have h : List.Pairwise (fun a b => rankIndex a.2 ≤ rankIndex b.2) rankTableQ := by decide
  simpa [rankTable, rankTableQ, List.pairwise_cons] using h

/-- Every coordinate string produced by the intended move scan is a
closing bracket, a closing parenthesis, or two lowercase letters. -/
theorem findallMovesAux_shape (fuel : ℕ) :
    ∀ (l : List Char) (c : Char) (coord : List Char),
      (c, coord) ∈ findallMovesAux fuel l →
      coord = [']'] ∨ coord = [')'] ∨
        ∃ a b, coord = [a, b] ∧ isLowerAZ a = true ∧ isLowerAZ b = true := by
  induction fuel with
  | zero => intro l c coord hm; simp [findallMovesAux] at hm
  | succ fuel ih =>
    intro l c coord hm
    rcases l with _ | ⟨c0, _ | ⟨b, _ | ⟨d1, _ | ⟨d2, r3⟩⟩⟩⟩
    · simp [findallMovesAux] at hm
    · simp [findallMovesAux] at hm
    · rw [findallMovesAux] at hm
      exact ih _ _ _ hm
    · rw [findallMovesAux] at hm
      by_cases hb : ((c0 = 'B' || c0 = 'W') && b = '[' && (d1 = ']' || d1 = ')')) = true
      · rw [if_pos hb] at hm
        have hh := List.mem_singleton.mp hm
        have hcoord : coord = [d1] := congrArg Prod.snd hh
        rcases Bool.or_eq_true .. ▸ (Bool.and_eq_true .. ▸ hb).2 with h1 | h1
        · left; rw [hcoord, of_decide_eq_true h1]
        · right; left; rw [hcoord, of_decide_eq_true h1]
      · rw [if_neg hb] at hm
        exact ih _ _ _ hm
    · rw [findallMovesAux] at hm
      by_cases hc : (c0 = 'B' || c0 = 'W') = true
      · rw [if_pos hc] at hm
        by_cases hbr : b = '['
        · rw [if_pos hbr] at hm
          by_cases hl : (isLowerAZ d1 && isLowerAZ d2) = true
          · rw [if_pos hl] at hm
            rcases List.mem_cons.mp hm with hh | ht
            · have hcoord : coord = [d1, d2] := congrArg Prod.snd hh
              exact Or.inr (Or.inr ⟨d1, d2, hcoord, (Bool.and_eq_true .. ▸ hl).1,
                (Bool.and_eq_true .. ▸ hl).2⟩)
            · exact ih _ _ _ ht
          · rw [if_neg hl] at hm
            by_cases hp : (d1 = ']' || d1 = ')') = true
            · rw [if_pos hp] at hm
              rcases List.mem_cons.mp hm with hh | ht
              · have hcoord : coord = [d1] := congrArg Prod.snd hh
                rcases Bool.or_eq_true .. ▸ hp with h1 | h1
                · left; rw [hcoord, of_decide_eq_true h1]
                · right; left; rw [hcoord, of_decide_eq_true h1]
              · exact ih _ _ _ ht
            · rw [if_neg hp] at hm
              exact ih _ _ _ hm
        · rw [if_neg hbr] at hm
          exact ih _ _ _ hm
      · rw [if_neg hc] at hm
        exact ih _ _ _ hm

/-- Coordinate bound for the move-construction loop: when every match
has the shape guaranteed by the move pattern, every constructed
coordinate pair lies within 0..25 on both components. -/
theorem movesFromMatches_bounds (ms : List (Char × List Char)) :
    ∀ (n : ℕ),
      (∀ p ∈ ms, p.2 = [']'] ∨ p.2 = [')'] ∨
        ∃ a b, p.2 = [a, b] ∧ isLowerAZ a = true ∧ isLowerAZ b = true) →
      ∀ m ∈ movesFromMatches n ms, ∀ rc : Int × Int, m.2.2 = some rc →
        0 ≤ rc.1 ∧ rc.1 ≤ 25 ∧ 0 ≤ rc.2 ∧ rc.2 ≤ 25 := by
  induction ms with
  | nil => intro n _ m hm; simp [movesFromMatches] at hm
  | cons p ms ih =>
    intro n hshape m hm rc hrc
    obtain ⟨color, coord⟩ := p
    have htail : ∀ q ∈ ms, q.2 = [']'] ∨ q.2 = [')'] ∨
        ∃ a b, q.2 = [a, b] ∧ isLowerAZ a = true ∧ isLowerAZ b = true :=
      fun q hq => hshape q (List.mem_cons_of_mem _ hq)
    rcases hshape (color, coord) (List.mem_cons_self _ _) with hs | hs | ⟨a, b, hab, ha, hb⟩
    · replace hs : coord = [']'] := hs
      subst hs
      rw [movesFromMatches.eq_3 _ _ _ _ (by intro c0 c1 h; simp at h)] at hm
      rw [if_pos (by decide)] at hm
      rcases List.mem_cons.mp hm with hh | ht
      · subst hh; simp at hrc
      · exact ih (n + 1) htail m ht rc hrc
    · replace hs : coord = [')'] := hs
      subst hs
      rw [movesFromMatches.eq_3 _ _ _ _ (by intro c0 c1 h; simp at h)] at hm
      rw [if_neg (by decide)] at hm
      exact ih (n + 1) htail m hm rc hrc
    · replace hab : coord = [a, b] := hab
      subst hab
      rw [movesFromMatches.eq_2] at hm
      by_cases hp : (decide ([a, b] = [']']) || decide ([a, b] = ['t', 't'])) = true
      · rw [if_pos hp] at hm
        rcases List.mem_cons.mp hm with hh | ht
        · subst hh; simp at hrc
        · exact ih (n + 1) htail m ht rc hrc
      · rw [if_neg hp] at hm
        rcases List.mem_cons.mp hm with hh | ht
        · subst hh
          obtain ⟨r1, r2⟩ := rc
          obtain ⟨h1, h2⟩ := Prod.mk.inj (Option.some.inj hrc)
          simp only [isLowerAZ, Bool.and_eq_true, decide_eq_true_eq] at ha hb
          refine ⟨?_, ?_, ?_, ?_⟩ <;> simp only [] <;> omega
        · exact ih (n + 1) htail m ht rc hrc

/-- Successive ratings produced by a sequence of recorded games: each
step increments the game count and applies `calculate_new_rating`, as
`record_game_result` does. -/
noncomputable def ratingTrace (start : ℝ) (games_played : ℕ) :
    List (ℝ × ℝ) → List ℝ
  | [] => []
  | (opp, res) :: rest =>
    calculate_new_rating start opp res (games_played + 1) ::
      ratingTrace (calculate_new_rating start opp res (games_played + 1))
        (games_played + 1) rest

/-- A concrete one-game progress record used as the stored history of a
single user in the milestone scenarios. -/
noncomputable def demoRecord : ProgressRecord := ⟨1510, "5级", 1, 1510, 1, 1, 1900, 0⟩

/-- The progress summary the tracker produces for a user whose only
record is `demoRecord`. -/
noncomputable def demoSummary : Summary := get_progress_summary (some demoRecord) []

/-- Evaluation of `demoSummary`. -/
theorem demoSummary_eval :
    demoSummary = ⟨1510, "5级", 1, 1, "insufficient_data"⟩ := by
  unfold demoSummary get_progress_summary demoRecord
  norm_num

/-- A milestone key reported by a check was not achieved beforehand. -/
theorem milestoneFold_reported_not_achieved (s : Summary)
    (l : Option ProgressRecord) (keys : List String) :
    ∀ (acc : List String × MilestoneState) (k : String),
      k ∈ (keys.foldl (milestoneStep s l) acc).1 → k ∈ acc.1 ∨ acc.2 k = false := by
  induction keys with
  | nil => intro acc k hk; exact Or.inl hk
  | cons k0 keys ih =>
    intro acc k hk
    rw [List.foldl_cons] at hk
    rcases ih (milestoneStep s l acc k0) k hk with hmem | hfalse
    · unfold milestoneStep at hmem
      by_cases hc : milestoneCond s l k0 ∧ acc.2 k0 = false
      · rw [if_pos hc] at hmem
        rcases List.mem_append.mp hmem with h | h
        · exact Or.inl h
        · rcases List.mem_singleton.mp h with rfl
          exact Or.inr hc.2
      · rw [if_neg hc] at hmem
        exact Or.inl hmem
    · unfold milestoneStep at hfalse
      by_cases hc : milestoneCond s l k0 ∧ acc.2 k0 = false
      · rw [if_pos hc] at hfalse
        by_cases hkk : k = k0
        · exact Or.inr (by simp [hkk] at hfalse)
        · exact Or.inr (by simpa [hkk] using hfalse)
      · rw [if_neg hc] at hfalse
        exact Or.inr hfalse

/-- Achieved flags survive a milestone check. -/
theorem milestoneFold_achieved_mono (s : Summary)
    (l : Option ProgressRecord) (keys : List String) :
    ∀ (acc : List String × MilestoneState) (k : String),
      acc.2 k = true → (keys.foldl (milestoneStep s l) acc).2 k = true := by
  induction keys with
  | nil => intro acc k hk; exact hk
  | cons k0 keys ih =>
    intro acc k hk
    rw [List.foldl_cons]
    refine ih (milestoneStep s l acc k0) k ?_
    unfold milestoneStep
    by_cases hc : milestoneCond s l k0 ∧ acc.2 k0 = false
    · rw [if_pos hc]
      by_cases hkk : k = k0
      · simp [hkk]
      · simpa [hkk] using hk
    · rw [if_neg hc]
      exact hk

/-- A milestone key reported by a check is marked achieved in the state
the check returns. -/
theorem milestoneFold_reported_achieved (s : Summary)
    (l : Option ProgressRecord) (keys : List String) :
    ∀ (acc : List String × MilestoneState),
      (∀ k ∈ acc.1, acc.2 k = true) →
      ∀ k ∈ (keys.foldl (milestoneStep s l) acc).1,
        (keys.foldl (milestoneStep s l) acc).2 k = true := by
  induction keys with
  | nil => intro acc hinv k hk; exact hinv k hk
  | cons k0 keys ih =>
    intro acc hinv k hk
    rw [List.foldl_cons] at hk ⊢
    refine ih (milestoneStep s l acc k0) ?_ k hk
    intro k2 hk2
    unfold milestoneStep at hk2 ⊢
    by_cases hc : milestoneCond s l k0 ∧ acc.2 k0 = false
    · rw [if_pos hc] at hk2 ⊢
      rcases List.mem_append.mp hk2 with h | h
      · by_cases hkk : k2 = k0
        · simp [hkk]
        · simpa [hkk] using hinv k2 h
      · rcases List.mem_singleton.mp h with rfl
        simp
    · rw [if_neg hc] at hk2 ⊢
      exact hinv k2 hk2

/-! ## Claim theorems -/

/-- C1 counterexample: recording a first win against a 1500-rated
opponent for a fresh user does not produce K-factor 60, rating 1530 or
rank label 10 kyu — `record_game_result` passes the incremented game
count 1 to the rating update, and 1529.95 falls in the 5-kyu band. -/
theorem first_win_claim_fails :
    kFactor 1 ≠ 60 ∧
    (record_game_result none [] 1500 1).rating ≠ 1530 ∧
    (record_game_result none [] 1500 1).rank ≠ "10级" := by
  have hr : (record_game_result none [] 1500 1).rating = 30599 / 20 := by
    show calculate_new_rating initial_rating 1500 1 1 = 30599 / 20
    rw [initial_rating, calculate_first_win]
  have hk : kFactor 1 = 599 / 10 := kFactor_one
  refine ⟨by rw [hk]; norm_num, by rw [hr]; norm_num, ?_⟩
  show estimate_strength (calculate_new_rating initial_rating 1500 1 1) ≠ "10级"
  rw [initial_rating, calculate_first_win]
  unfold estimate_strength
  norm_num
  decide

/-- C1 amended: recording one win (result 1.0) for a fresh user against
an opponent rated 1500 yields expected score 0.5, K-factor 59.9 (the
update is called with the incremented game count 1), new rating exactly
1529.95, rank label 5 kyu (the code's 5级), win rate 1.0, and counters
games_played = games_won = 1. -/
theorem first_win_eval :
    expectedScore 1500 1500 = 1 / 2 ∧
    kFactor 1 = 599 / 10 ∧
    (record_game_result none [] 1500 1).rating = 30599 / 20 ∧
    (record_game_result none [] 1500 1).rank = "5级" ∧
    (record_game_result none [] 1500 1).win_rate = 1 ∧
    (record_game_result none [] 1500 1).games_played = 1 ∧
    (record_game_result none [] 1500 1).games_won = 1 := by
  refine ⟨expectedScore_self 1500 1500 rfl, kFactor_one, ?_, ?_, ?_, ?_, ?_⟩
  · show calculate_new_rating initial_rating 1500 1 1 = 30599 / 20
    rw [initial_rating, calculate_first_win]
  · show estimate_strength (calculate_new_rating initial_rating 1500 1 1) = "5级"
    rw [initial_rating, calculate_first_win]
    unfold estimate_strength
    norm_num
  · simp only [record_game_result]
    norm_num
  · rfl
  · simp only [record_game_result]
    norm_num

/-- C2 counterexample: the default summary for a user with no history
does not carry the rank label 30 kyu — `estimate_strength 1500` is the
5-kyu band, because 1500 fails every threshold below `rating < 1800`. -/
theorem empty_summary_rank_not_30kyu :
    (get_progress_summary none []).current_rank ≠ "30级" := by
  show estimate_strength initial_rating ≠ "30级"
  rw [initial_rating]
  unfold estimate_strength
  norm_num
  decide

/-- C2 amended: for every user with no game history the progress summary
is the initial-state default — rating 1500, rank 5 kyu (the code's 5级),
0 total games, win rate 0, trend unknown — and it is returned totally,
never an error. -/
theorem empty_summary_default (recent_records : List ProgressRecord) :
    get_progress_summary none recent_records =
      ⟨1500, "5级", 0, 0, "unknown"⟩ := by
  have h5 : estimate_strength initial_rating = "5级" := by
    rw [initial_rating]
    unfold estimate_strength
    norm_num
  unfold get_progress_summary
  rw [h5, initial_rating]

/-- C3: starting from any rating at least 100, every rating produced by
a finite sequence of recorded results in 0, 0.5, 1 against arbitrary
opponent ratings stays at or above 100, because every update is floored
at 100. -/
theorem rating_floor (start : ℝ) (games_played : ℕ) (seq : List (ℝ × ℝ))
    (hstart : 100 ≤ start)
    (hres : ∀ p ∈ seq, p.2 = 0 ∨ p.2 = 1 / 2 ∨ p.2 = 1) :
    ∀ r ∈ start :: ratingTrace start games_played seq, 100 ≤ r := by
  induction seq generalizing start games_played with
  | nil =>
    intro r hr
    rcases List.mem_cons.mp hr with rfl | h
    · exact hstart
    · simp [ratingTrace] at h
  | cons p rest ih =>
    obtain ⟨opp, res⟩ := p
    intro r hr
    rcases List.mem_cons.mp hr with rfl | h
    · exact hstart
    · rw [ratingTrace] at h
      exact ih (calculate_new_rating start opp res (games_played + 1)) (games_played + 1)
        (le_max_left _ _)
        (fun q hq => hres q (List.mem_cons_of_mem _ hq)) r h

/-- C3 witness: a concrete two-game losing sequence from rating 100. -/
theorem rating_floor_witness :
    100 ≤ calculate_new_rating 100 3000 0 1 := by
  refine rating_floor 100 0 [(3000, 0)] (by norm_num) ?_
    (calculate_new_rating 100 3000 0 1) ?_
  · intro p hp
    rcases List.mem_singleton.mp hp with rfl
    exact Or.inl rfl
  · rw [ratingTrace]
    exact List.mem_cons_of_mem _ (List.mem_cons_self _ _)

/-- C4: the K-factor is non-increasing in the number of games played and
never drops below 20. -/
theorem kFactor_monotone_decay :
    (∀ g1 g2 : ℕ, g1 ≤ g2 → kFactor g2 ≤ kFactor g1) ∧
    (∀ g : ℕ, (20 : ℝ) ≤ kFactor g) := by
  constructor
  · intro g1 g2 h
    unfold kFactor
    have hc : (g1 : ℝ) ≤ (g2 : ℝ) := Nat.cast_le.mpr h
    apply max_le_max le_rfl
    nlinarith
  · intro g
    exact le_max_left _ _

/-- C4 witness: the K-factor at 500 games is at most the K-factor at 3
games and at least 20. -/
theorem kFactor_monotone_decay_witness :
    kFactor 500 ≤ kFactor 3 ∧ (20 : ℝ) ≤ kFactor 500 :=
  ⟨kFactor_monotone_decay.1 3 500 (by norm_num), kFactor_monotone_decay.2 500⟩

/-- C5: the rating-to-rank mapping is monotone — a lower rating never
gets a label that sits higher in the fixed ordered rank list. -/
theorem estimate_strength_monotone (r1 r2 : ℝ) (h : r1 < r2) :
    rankIndex (estimate_strength r1) ≤ rankIndex (estimate_strength r2) := by
  rw [estimate_strength_eq_chain, estimate_strength_eq_chain]
  refine rankChain_mono _ _ _ _ rankTable_sorted ?_ (le_of_lt h)
  intro p hp
  fin_cases hp <;> decide

/-- C5 witness: a 10-kyu rating maps no higher than a 2-dan rating. -/
theorem estimate_strength_monotone_witness :
    rankIndex (estimate_strength 1250) ≤ rankIndex (estimate_strength 2450) :=
  estimate_strength_monotone 1250 2450 (by norm_num)

/-- C6: on the end-to-end SGF fragment the parser as written raises
re.error (its move pattern never compiles), while the intended scan the
spec describes yields board size 19 and exactly the claimed move list. -/
theorem parse_fragment_eval :
    parse_sgf ";GM[1]FF[4]SZ[19];B[pd];W[dp];B[]" = Except.error moveRegexErrorMsg ∧
    parse_sgf_fixed ";GM[1]FF[4]SZ[19];B[pd];W[dp];B[]" =
      ⟨[("GM", "1"), ("FF", "4"), ("SZ", "19")],
       [(1, 'B', some (3, 15)), (2, 'W', some (15, 3)), (3, 'B', none)], 19⟩ := by
  exact ⟨rfl, by decide⟩

/-- C7: move parsing as written raises re.error on every input instead
of returning a move list; and even under the intended pattern a token
B[abc] is not skipped (its first two letters match and contribute a
move), while B[a] is skipped. -/
theorem parse_moves_always_raises :
    (∀ s : List Char, parse_moves s = Except.error moveRegexErrorMsg) ∧
    parse_moves_fixed (";B[abc]".data) = [(1, 'B', some (1, 0))] ∧
    parse_moves_fixed (";B[a]".data) = [] := by
  exact ⟨fun s => rfl, by decide, by decide⟩

/-- C8 counterexample: milestone reporting is not independent across
users.  Two users each have one identically-shaped game history; when
user b is checked on a fresh manager, first_game is reported for b, but
when user a was checked first on the same manager, the very same check
for b reports nothing — the shared achieved dictionary suppressed it. -/
theorem milestone_not_per_user :
    "first_game" ∈ (check_milestones initMilestones demoSummary (some demoRecord)).1 ∧
    "first_game" ∉
      (check_milestones (check_milestones initMilestones demoSummary (some demoRecord)).2
        demoSummary (some demoRecord)).1 := by
  rw [demoSummary_eval]
  constructor
  · norm_num [check_milestones, checkOrder, milestoneStep, milestoneCond,
      initMilestones, demoRecord]
    decide
  · norm_num [check_milestones, checkOrder, milestoneStep, milestoneCond,
      initMilestones, demoRecord]
    decide

/-- C8 amended: milestone reporting is one-shot, but in the shared
manager dictionary rather than per user: a key is reported only when its
shared achieved flag is still clear, achieved flags never revert, and a
reported key is marked achieved — so once any check (for any user)
reports a milestone, no later check for any user reports it again. -/
theorem milestone_one_shot_shared (st : MilestoneState) (s : Summary)
    (l : Option ProgressRecord) (k : String) :
    (k ∈ (check_milestones st s l).1 → st k = false) ∧
    (st k = true → (check_milestones st s l).2 k = true) ∧
    (k ∈ (check_milestones st s l).1 → (check_milestones st s l).2 k = true) := by
  refine ⟨?_, ?_, ?_⟩
  · intro hk
    rcases milestoneFold_reported_not_achieved s l checkOrder ([], st) k hk with h | h
    · simp at h
    · exact h
  · intro hk
    exact milestoneFold_achieved_mono s l checkOrder ([], st) k hk
  · intro hk
    refine milestoneFold_reported_achieved s l checkOrder ([], st) ?_ k hk
    intro k2 hk2
    simp at hk2

/-- C8 amended witness: after the check that reports first_game, the
shared flag for first_game is set. -/
theorem milestone_one_shot_shared_witness :
    (check_milestones initMilestones demoSummary (some demoRecord)).2 "first_game" = true :=
  (milestone_one_shot_shared initMilestones demoSummary (some demoRecord) "first_game").2.2
    (by
      rw [demoSummary_eval]
      norm_num [check_milestones, checkOrder, milestoneStep, milestoneCond,
        initMilestones, demoRecord]
      decide)

/-- C9: recording a game result on top of an existing latest record
increments games_played by exactly one and increments games_won by one
exactly when the recorded result is 1.0, otherwise by zero. -/
theorem record_game_result_counters (last : ProgressRecord)
    (recent : List ProgressRecord) (opp res : ℝ) :
    (record_game_result (some last) recent opp res).games_played =
      last.games_played + 1 ∧
    (record_game_result (some last) recent opp res).games_won =
      last.games_won + (if res = 1 then 1 else 0) :=
  ⟨rfl, rfl⟩

/-- C10: every non-pass move the move parser returns has both
coordinates between 0 and 25 — vacuously for the parser as written
(its move pattern never compiles, so it returns no move list at all),
and substantively for the intended scan, whose coordinates are decoded
from lowercase letters. -/
theorem parsed_coords_in_range :
    (∀ (s : String) (res : SGFResult), parse_sgf s = Except.ok res →
      ∀ m ∈ res.moves, ∀ rc : Int × Int, m.2.2 = some rc →
        0 ≤ rc.1 ∧ rc.1 ≤ 25 ∧ 0 ≤ rc.2 ∧ rc.2 ≤ 25) ∧
    (∀ (s : String), ∀ m ∈ (parse_sgf_fixed s).moves, ∀ rc : Int × Int,
      m.2.2 = some rc →
        0 ≤ rc.1 ∧ rc.1 ≤ 25 ∧ 0 ≤ rc.2 ∧ rc.2 ≤ 25) := by
  constructor
  · intro s res hres
    exfalso
    rw [parse_sgf] at hres
    simp [parse_moves] at hres
  · intro s m hm rc hrc
    refine movesFromMatches_bounds (findallMoves (cleanSGF s)) 1 ?_ m hm rc hrc
    intro p hp
    obtain ⟨c, coord⟩ := p
    exact findallMovesAux_shape _ _ _ _ hp

/-- C10 witness: the move decoded from B[pd] lies in range. -/
theorem parsed_coords_in_range_witness :
    (0 : Int) ≤ 3 ∧ (3 : Int) ≤ 25 ∧ (0 : Int) ≤ 15 ∧ (15 : Int) ≤ 25 :=
  parsed_coords_in_range.2 ";B[pd]" (1, 'B', some (3, 15)) (by decide) (3, 15) rfl

end TW3
